import Mathlib

/-!
A shallow embedding of `src/cfel_cxi.py` (the CXI writer of cfelpyutils).

Python objects are embedded as immutable Lean structures; every method that
mutates `self` is a function returning the new state.  Because a Python method
can mutate part of the object and then raise, each fallible writer method
returns the pair `state-after-the-call × Option String`: the first component is
the (possibly partially mutated) state, the second is `some message` when the
method raised `RuntimeError(message)` and `none` when it returned normally.
Atomic h5py primitives (which either fully succeed or raise before mutating)
are embedded as `Except String`.

The h5py collaborator is modelled at exactly the interface the writer uses:
a file is an insertion-ordered map from path to dataset; a dataset is either a
chunked resizable stack dataset (leading-axis slices, a maximal leading length
and a leading chunk size) or a plain one-shot dataset; operations on a closed
file raise.  Numeric payloads are opaque to the writer (it never computes with
them), so a Python float is carried as an opaque integer code.
-/

/-- The Python runtime type tag of a value, as seen by `type(...)` /
`isinstance` checks in the source.  `tOther` stands for any Python type outside
the four the writer handles (e.g. `list`, `dict`, `NoneType`). -/
inductive PyType where
  | tStr
  | tInt
  | tFloat
  | tNdarray
  | tOther
deriving DecidableEq, Repr

/-- A Python value at the writer's ingestion points: `str`, `int`, `float`,
`numpy.ndarray` (a shape plus opaque numeric cells), or any unsupported value
(`vOther`), which `_validate_data` rejects. -/
inductive Value where
  | vStr (s : String)
  | vInt (n : Int)
  | vFloat (code : Int)
  | vArr (shape : List Nat) (cells : List Int)
  | vOther
deriving DecidableEq, Repr

/-- `type(data)` on an embedded value. -/
def pyTypeOf : Value → PyType
  | .vStr _ => .tStr
  | .vInt _ => .tInt
  | .vFloat _ => .tFloat
  | .vArr _ _ => .tNdarray
  | .vOther => .tOther

/-- `isinstance(data, (str, int, float))` in the source. -/
def isScalarLike : Value → Bool
  | .vStr _ => true
  | .vInt _ => true
  | .vFloat _ => true
  | _ => false

/-- The per-slice shape the source computes twice (in `_Stack.__init__` and in
`_Stack.append_data`): `(1,)` for `str`/`int`/`float`, else `data.shape`.
A `vOther` value never reaches this computation (it is stopped by
`_validate_data` at every ingestion point); we give it the empty shape. -/
def sliceShape (data : Value) : List Nat :=
  if isScalarLike data then [1]
  else match data with
    | .vArr shape _ => shape
    | _ => []

/-- `_validate_data` of the source: `some message` iff the value is not a
`numpy` object, number or string. -/
def validate_data (data : Value) : Option String :=
  match data with
  | .vOther => some "The CXI Writer only accepts numpy objects, numbers and strings."
  | _ => none

/-- An HDF5 object in the file: either a chunked resizable stack dataset
(element shape, maximal leading-axis length, leading-axis chunk size, current
slices where `none` is the never-written fill value) or a plain one-shot
dataset. -/
inductive H5Obj where
  | stackDS (elemShape : List Nat) (maxLead : Nat) (chunkLead : Nat)
      (slices : List (Option Value))
  | simpleDS (data : Value)
deriving DecidableEq, Repr

/-- First value bound to `key`, if any (Python `d[k]` / `k in d`). -/
def alookup {α : Type} : List (String × α) → String → Option α
  | [], _ => none
  | (k, v) :: rest, key => if k = key then some v else alookup rest key

/-- Remove the binding of `key` (Python `del d[k]`; keys are unique by
construction, so removing every occurrence is the same thing). -/
def aremove {α : Type} : List (String × α) → String → List (String × α)
  | [], _ => []
  | (k, v) :: rest, key =>
      if k = key then aremove rest key else (k, v) :: aremove rest key

/-- Python dict assignment `d[k] = v`: replace in place when the key exists
(order preserved), otherwise append at the end. -/
def aset {α : Type} : List (String × α) → String → α → List (String × α)
  | [], key, v => [(key, v)]
  | (k, w) :: rest, key, v =>
      if k = key then (k, v) :: rest else (k, w) :: aset rest key v

/-- The h5py file handle: open flag plus insertion-ordered path → object map. -/
structure H5File where
  isOpen : Bool
  objs : List (String × H5Obj)
deriving DecidableEq, Repr

/-- `path in file_handle`; raises on a closed file like every h5py call. -/
def h5contains (fh : H5File) (path : String) : Except String Bool :=
  if fh.isOpen then .ok (alookup fh.objs path).isSome
  else .error "Operation on a closed HDF5 file."

/-- `del file_handle[path]`. -/
def h5delete (fh : H5File) (path : String) : Except String H5File :=
  if fh.isOpen then
    match alookup fh.objs path with
    | some _ => .ok { fh with objs := aremove fh.objs path }
    | none => .error "Could not delete the link: no object at the given path."
  else .error "Operation on a closed HDF5 file."

/-- `file_handle.create_dataset(path, data=value)` (the one-shot form). -/
def h5create_simple (fh : H5File) (path : String) (data : Value) :
    Except String H5File :=
  if fh.isOpen then
    match alookup fh.objs path with
    | some _ => .error "Unable to create dataset: name already exists."
    | none => .ok { fh with objs := fh.objs ++ [(path, .simpleDS data)] }
  else .error "Operation on a closed HDF5 file."

/-- `file_handle.create_dataset(path, shape=(cap,)+s, maxshape=(cap,)+s,
chunks=(chunk,)+s)`: a resizable stack dataset, all slices still at the fill
value. -/
def h5create_stack (fh : H5File) (path : String) (cap chunkLead : Nat)
    (elemShape : List Nat) : Except String H5File :=
  if fh.isOpen then
    match alookup fh.objs path with
    | some _ => .error "Unable to create dataset: name already exists."
    | none =>
        .ok { fh with objs := fh.objs ++
                [(path, .stackDS elemShape cap chunkLead (List.replicate cap none))] }
  else .error "Operation on a closed HDF5 file."

/-- `file_handle[path][idx] = data`: random-access write of one leading-axis
slice of a stack dataset. -/
def h5set_slice (fh : H5File) (path : String) (idx : Nat) (data : Value) :
    Except String H5File :=
  if fh.isOpen then
    match alookup fh.objs path with
    | none => .error "No object at the given path."
    | some (.simpleDS _) => .error "Cannot slice-assign a non-resizable dataset."
    | some (.stackDS sh cap ch slices) =>
        if idx < slices.length then
          .ok { fh with
                objs := aset fh.objs path (.stackDS sh cap ch (slices.set idx (some data))) }
        else .error "Index out of range for the leading axis."
  else .error "Operation on a closed HDF5 file."

/-- The slices after `dataset.resize((newLead,) + elemShape)`: truncate, or pad
with the fill value when growing (h5py allows growth up to `maxshape`). -/
def resizeSlices (slices : List (Option Value)) (newLead : Nat) :
    List (Option Value) :=
  slices.take newLead ++ List.replicate (newLead - slices.length) none

/-- `file_handle[path].resize((newLead,) + elemShape)`. -/
def h5resize (fh : H5File) (path : String) (newLead : Nat) :
    Except String H5File :=
  if fh.isOpen then
    match alookup fh.objs path with
    | none => .error "No object at the given path."
    | some (.simpleDS _) => .error "Cannot resize a non-resizable dataset."
    | some (.stackDS sh cap ch slices) =>
        if newLead ≤ cap then
          .ok { fh with
                objs := aset fh.objs path (.stackDS sh cap ch (resizeSlices slices newLead)) }
        else .error "Resize exceeds the maximal shape."
  else .error "Operation on a closed HDF5 file."

/-- `_Stack` of the source: fixed element type tag and shape, the optional
pending buffer `_data_to_write`, and the container path. -/
structure Stack where
  data_type : PyType
  data_shape : List Nat
  data_to_write : Option Value
  path : String
deriving DecidableEq, Repr

/-- `_Stack.__init__(path, data)`. -/
def Stack.init (path : String) (data : Value) : Stack :=
  { data_type := pyTypeOf data
    data_shape := sliceShape data
    data_to_write := some data
    path := path }

/-- `_Stack.write_initial_slice(file_handle, max_num_slices)`: create the
resizable dataset (leading chunk size 1) and write the buffered initial value
at leading-axis index 0, then clear the buffer.  Mid-method failure leaves any
mutation already performed in place, as in Python. -/
def Stack.write_initial_slice (st : Stack) (fh : H5File) (max_num_slices : Nat) :
    Stack × H5File × Option String :=
  match h5create_stack fh st.path max_num_slices 1 st.data_shape with
  | .error e => (st, fh, some e)
  | .ok fh1 =>
    match st.data_to_write with
    | none => (st, fh1, some "Cannot assign None to a dataset slice.")
    | some v =>
      match h5set_slice fh1 st.path 0 v with
      | .error e => (st, fh1, some e)
      | .ok fh2 => ({ st with data_to_write := none }, fh2, none)

/-- `_Stack.write_slice(file_handle, curr_slice)`: write the pending buffer at
the given leading-axis index, then clear the buffer. -/
def Stack.write_slice (st : Stack) (fh : H5File) (curr_slice : Nat) :
    Stack × H5File × Option String :=
  match st.data_to_write with
  | none => (st, fh, some "Cannot assign None to a dataset slice.")
  | some v =>
    match h5set_slice fh st.path curr_slice v with
    | .error e => (st, fh, some e)
    | .ok fh1 => ({ st with data_to_write := none }, fh1, none)

/-- `_Stack.append_data(data)`: reject a second outstanding append, a type
mismatch and a shape mismatch; otherwise store the pending buffer. -/
def Stack.append_data (st : Stack) (data : Value) : Except String Stack :=
  if st.data_to_write.isSome then
    .error ("Cannot append data to the stack entry at " ++ st.path ++
            ". The previous slice has not been written yet.")
  else if pyTypeOf data ≠ st.data_type then
    .error "The type of the input data does not match what is already present in the stack."
  else if sliceShape data ≠ st.data_shape then
    .error "The shape of the input data does not match what is already present in the stack."
  else .ok { st with data_to_write := some data }

/-- `_Stack.finalize(file_handle, curr_slice)`: refuse while data is pending,
otherwise truncate the leading axis to `curr_slice`. -/
def Stack.finalize (st : Stack) (fh : H5File) (curr_slice : Nat) :
    H5File × Option String :=
  match st.data_to_write with
  | some _ => (fh, some ("Cannot finalize the stack at " ++ st.path ++
                         ", there is data waiting to be written."))
  | none =>
    match h5resize fh st.path curr_slice with
    | .error e => (fh, some e)
    | .ok fh1 => (fh1, none)

/-- The `SimpleEntry` namedtuple of `CXIWriter.write_entry`. -/
structure SimpleEntry where
  path : String
  data : Value
  overwrite : Bool
deriving DecidableEq, Repr

/-- `CXIWriter` state.  The dead `_intialized` (sic) field of the source is
omitted; `fh` is the h5py handle. -/
structure CXIWriter where
  cxi_stacks : List (String × Stack)
  pending_simple_entries : List SimpleEntry
  curr_slice : Nat
  max_num_slices : Nat
  file_is_open : Bool
  initialized : Bool
  fh : H5File
deriving DecidableEq, Repr

/-- `CXIWriter.__init__(filename, max_num_slices=5000)`, on the path where
opening the file succeeds (the `OSError` branch is environmental). -/
def CXIWriter.new (max_num_slices : Nat := 5000) : CXIWriter :=
  { cxi_stacks := []
    pending_simple_entries := []
    curr_slice := 0
    max_num_slices := max_num_slices
    file_is_open := true
    initialized := false
    fh := { isOpen := true, objs := [] } }

/-- `CXIWriter._write_simple_entry(entry)`: delete the occupant when
overwriting is requested, refuse when it is not, then create the dataset. -/
def write_simple_entry (fh : H5File) (entry : SimpleEntry) :
    Except String H5File :=
  match h5contains fh entry.path with
  | .error e => .error e
  | .ok true =>
    if entry.overwrite then
      match h5delete fh entry.path with
      | .error e => .error e
      | .ok fh1 => h5create_simple fh1 entry.path entry.data
    else .error "Cannot write the entry. Data is already present at the specified path."
  | .ok false => h5create_simple fh entry.path entry.data

/-- `CXIWriter.add_stack_to_writer(name, path, initial_data, overwrite=True)`. -/
def CXIWriter.add_stack_to_writer (w : CXIWriter) (name path : String)
    (initial_data : Value) (overwrite : Bool := true) :
    CXIWriter × Option String :=
  match validate_data initial_data with
  | some e => (w, some e)
  | none =>
    if w.initialized then
      (w, some "Adding stacks to the writer is not possible after initialization.")
    else
      match alookup w.cxi_stacks name with
      | some _ =>
        if overwrite then
          let stacks1 := aset (aremove w.cxi_stacks name) name (Stack.init path initial_data)
          ({ w with cxi_stacks := stacks1 }, none)
        else (w, some "Cannot write the entry. Data is already present at the specified path.")
      | none =>
        ({ w with cxi_stacks := aset w.cxi_stacks name (Stack.init path initial_data) }, none)

/-- `CXIWriter.write_entry(path, data, overwrite=False)`: validate, then queue
the entry before initialization or write it immediately afterwards. -/
def CXIWriter.write_entry (w : CXIWriter) (path : String) (data : Value)
    (overwrite : Bool := false) : CXIWriter × Option String :=
  match validate_data data with
  | some e => (w, some e)
  | none =>
    let new_entry : SimpleEntry := ⟨path, data, overwrite⟩
    if w.initialized = true then
      match write_simple_entry w.fh new_entry with
      | .error e => (w, some e)
      | .ok fh1 => ({ w with fh := fh1 }, none)
    else
      ({ w with pending_simple_entries := w.pending_simple_entries ++ [new_entry] }, none)

/-- The first loop of `CXIWriter.initialize_stacks`: run
`write_initial_slice` over the registered stacks in registry order, stopping at
the first failure with the partially updated registry and file. -/
def initAll (cap : Nat) :
    H5File → List (String × Stack) → List (String × Stack) × H5File × Option String
  | fh, [] => ([], fh, none)
  | fh, (n, st) :: rest =>
    match st.write_initial_slice fh cap with
    | (st1, fh1, some e) => ((n, st1) :: rest, fh1, some e)
    | (st1, fh1, none) =>
      match initAll cap fh1 rest with
      | (rest1, fh2, err) => ((n, st1) :: rest1, fh2, err)

/-- The second loop of `CXIWriter.initialize_stacks`: flush the queued simple
entries in FIFO order, stopping at the first failure. -/
def flushAll : H5File → List SimpleEntry → H5File × Option String
  | fh, [] => (fh, none)
  | fh, e :: rest =>
    match write_simple_entry fh e with
    | .error msg => (fh, some msg)
    | .ok fh1 => flushAll fh1 rest

/-- `CXIWriter.initialize_stacks()`. -/
def CXIWriter.initialize_stacks (w : CXIWriter) : CXIWriter × Option String :=
  if w.file_is_open ≠ true then
    (w, some "The file is closed. Cannot initialize the file.")
  else if w.initialized then
    (w, some "The file is already initialized. Cannot initialize file.")
  else
    match initAll w.max_num_slices w.fh w.cxi_stacks with
    | (stacks1, fh1, some e) => ({ w with cxi_stacks := stacks1, fh := fh1 }, some e)
    | (stacks1, fh1, none) =>
      let w1 := { w with cxi_stacks := stacks1, fh := fh1,
                         curr_slice := w.curr_slice + 1 }
      match flushAll w1.fh w1.pending_simple_entries with
      | (fh2, some e) => ({ w1 with fh := fh2 }, some e)
      | (fh2, none) =>
        ({ w1 with fh := fh2, pending_simple_entries := [], initialized := true }, none)

/-- `CXIWriter.append_to_stack(name, data)`. -/
def CXIWriter.append_to_stack (w : CXIWriter) (name : String) (data : Value) :
    CXIWriter × Option String :=
  match validate_data data with
  | some e => (w, some e)
  | none =>
    if w.initialized = false then
      (w, some "Cannot append to a stack before initialization of the file.")
    else
      match alookup w.cxi_stacks name with
      | none => (w, some ("Cannot append to stack " ++ name ++ ". The stack does not exists."))
      | some st =>
        match st.append_data data with
        | .error e => (w, some ("Error appending to stack " ++ name ++ ": " ++ e))
        | .ok st1 => ({ w with cxi_stacks := aset w.cxi_stacks name st1 }, none)

/-- The completeness scan of `write_stack_slice_and_increment`: the path of
the first registered stack with an empty pending buffer, in registry order. -/
def findIncomplete : List (String × Stack) → Option String
  | [] => none
  | (_, st) :: rest =>
    if st.data_to_write = none then some st.path else findIncomplete rest

/-- The write loop of `write_stack_slice_and_increment`: run `write_slice` over
the registered stacks in registry order, stopping at the first failure with the
partially updated registry and file. -/
def writeAll (idx : Nat) :
    H5File → List (String × Stack) → List (String × Stack) × H5File × Option String
  | fh, [] => ([], fh, none)
  | fh, (n, st) :: rest =>
    match st.write_slice fh idx with
    | (st1, fh1, some e) => ((n, st1) :: rest, fh1, some e)
    | (st1, fh1, none) =>
      match writeAll idx fh1 rest with
      | (rest1, fh2, err) => ((n, st1) :: rest1, fh2, err)

/-- `CXIWriter.write_stack_slice_and_increment()`. -/
def CXIWriter.write_stack_slice_and_increment (w : CXIWriter) :
    CXIWriter × Option String :=
  if w.file_is_open ≠ true then
    (w, some "The file is closed. The slice cannot be written.")
  else if w.initialized = false then
    (w, some "Cannot write slice. The file is not initialized.")
  else if w.curr_slice ≥ w.max_num_slices then
    (w, some "The file already holds the maximum allowed number of slices, and should be closed")
  else
    match findIncomplete w.cxi_stacks with
    | some path =>
      (w, some ("The slice is incomplete and will not be written. The following stac is not present in the current slice: " ++ path))
    | none =>
      match writeAll w.curr_slice w.fh w.cxi_stacks with
      | (stacks1, fh1, some e) => ({ w with cxi_stacks := stacks1, fh := fh1 }, some e)
      | (stacks1, fh1, none) =>
        ({ w with cxi_stacks := stacks1, fh := fh1,
                  curr_slice := w.curr_slice + 1 }, none)

/-- The loop of `CXIWriter.close_file()`: `finalize` every registered stack in
registry order, stopping at the first failure with the partially truncated
file. -/
def finalizeAll (curr_slice : Nat) :
    H5File → List (String × Stack) → H5File × Option String
  | fh, [] => (fh, none)
  | fh, (_, st) :: rest =>
    match st.finalize fh curr_slice with
    | (fh1, some e) => (fh1, some e)
    | (fh1, none) => finalizeAll curr_slice fh1 rest

/-- `file_handle.close()`: releasing the handle never raises. -/
def h5close (fh : H5File) : H5File := { fh with isOpen := false }

/-- `CXIWriter.close_file()`. -/
def CXIWriter.close_file (w : CXIWriter) : CXIWriter × Option String :=
  if w.file_is_open ≠ true then
    (w, some "The file is already closed. Cannot close the file.")
  else
    match finalizeAll w.curr_slice w.fh w.cxi_stacks with
    | (fh1, some e) => ({ w with fh := fh1 }, some e)
    | (fh1, none) => ({ w with fh := h5close fh1, file_is_open := false }, none)

/-- The `Open-Uninitialized` lifecycle state of the specification: the file is
open and `initialize` has not run. -/
def CXIWriter.OpenUninit (w : CXIWriter) : Prop :=
  w.file_is_open = true ∧ w.fh.isOpen = true ∧ w.initialized = false

/-- The `Initialized` lifecycle state of the specification: the file is open
and `initialize` has run. -/
def CXIWriter.InInitializedState (w : CXIWriter) : Prop :=
  w.file_is_open = true ∧ w.fh.isOpen = true ∧ w.initialized = true

/-- The `Closed` lifecycle state of the specification, reached from
`Initialized` by `close`: the handle is released and `initialize` has run
(the source's `close_file` does not reset `_initialized`). -/
def CXIWriter.InClosedState (w : CXIWriter) : Prop :=
  w.file_is_open = false ∧ w.fh.isOpen = false ∧ w.initialized = true

/-! ### Association-list lemmas -/

theorem alookup_aset_self {α : Type} (l : List (String × α)) (k : String) (v : α) :
    alookup (aset l k v) k = some v := by
  induction l with
  | nil => simp [aset, alookup]
  | cons a rest ih =>
    obtain ⟨ak, av⟩ := a
    by_cases h : ak = k <;> simp [aset, alookup, h, ih]

theorem alookup_aset_ne {α : Type} (l : List (String × α)) (k k2 : String) (v : α)
    (h : k2 ≠ k) : alookup (aset l k v) k2 = alookup l k2 := by
  induction l with
  | nil => simp [aset, alookup, Ne.symm h]
  | cons a rest ih =>
    obtain ⟨ak, av⟩ := a
    by_cases hk : ak = k
    · subst hk
      simp [aset, alookup, Ne.symm h]
    · by_cases hk2 : ak = k2 <;> simp [aset, alookup, hk, hk2, ih, h]

theorem alookup_append {α : Type} (l1 l2 : List (String × α)) (k : String) :
    alookup (l1 ++ l2) k = (alookup l1 k).or (alookup l2 k) := by
  induction l1 with
  | nil => simp [alookup]
  | cons a rest ih =>
    obtain ⟨ak, av⟩ := a
    by_cases h : ak = k <;> simp [alookup, h, ih]

theorem alookup_aremove_self {α : Type} (l : List (String × α)) (k : String) :
    alookup (aremove l k) k = none := by
  induction l with
  | nil => simp [aremove, alookup]
  | cons a rest ih =>
    obtain ⟨ak, av⟩ := a
    by_cases h : ak = k <;> simp [aremove, alookup, h, ih]

theorem alookup_aremove_ne {α : Type} (l : List (String × α)) (k k2 : String)
    (h : k2 ≠ k) : alookup (aremove l k) k2 = alookup l k2 := by
  induction l with
  | nil => simp [aremove, alookup]
  | cons a rest ih =>
    obtain ⟨ak, av⟩ := a
    by_cases hk : ak = k
    · subst hk
      simp [aremove, alookup, Ne.symm h, ih]
    · by_cases hk2 : ak = k2 <;> simp [aremove, alookup, hk, hk2, ih, h]

theorem resizeSlices_length (slices : List (Option Value)) (n : Nat) :
    (resizeSlices slices n).length = n := by
  simp [resizeSlices]
  omega

theorem findIncomplete_of_missing (l : List (String × Stack))
    (h : ∃ p ∈ l, p.2.data_to_write = none) : (findIncomplete l).isSome := by
  induction l with
  | nil => simp at h
  | cons a rest ih =>
    obtain ⟨an, ast⟩ := a
    obtain ⟨p, hp, hnone⟩ := h
    by_cases ha : ast.data_to_write = none
    · simp [findIncomplete, ha]
    · simp only [findIncomplete, if_neg ha]
      rcases List.mem_cons.mp hp with rfl | hp2
      · exact absurd hnone ha
      · exact ih ⟨p, hp2, hnone⟩

/-- Claim C10: with an empty series registry, a commit on an open, initialized
writer whose slice counter is below capacity succeeds and only increments the
slice counter — the all-series pending-buffer requirement is vacuously
satisfied and nothing is written to the file. -/
theorem commit_with_empty_registry (w : CXIWriter)
    (hstacks : w.cxi_stacks = [])
    (hopen : w.file_is_open = true)
    (hinit : w.initialized = true)
    (hcap : w.curr_slice < w.max_num_slices) :
    w.write_stack_slice_and_increment =
      ({ w with curr_slice := w.curr_slice + 1 }, none) := by
  obtain ⟨stks, pend, cs, mx, fo, ini, fh⟩ := w
  simp only at hstacks hopen hinit hcap
  subst hstacks hopen hinit
  simp [CXIWriter.write_stack_slice_and_increment, Nat.not_le.mpr hcap,
        findIncomplete, writeAll]

/-- Witness for C10: a fresh writer with capacity 5 and no registered series,
just initialized, commits successfully and moves its counter from 1 to 2. -/
theorem commit_with_empty_registry_witness :
    (CXIWriter.new 5).initialize_stacks.1.write_stack_slice_and_increment =
      ({ (CXIWriter.new 5).initialize_stacks.1 with
          curr_slice := (CXIWriter.new 5).initialize_stacks.1.curr_slice + 1 }, none) :=
  commit_with_empty_registry _ (by decide) (by decide) (by decide) (by decide)

/-- Claim C2: all-or-nothing commit.  On an initialized writer whose registry
has some series with a pending buffer and some series without one,
`write_stack_slice_and_increment` raises and performs no state change at all:
no pending buffer is cleared or written and the slice counter is unchanged. -/
theorem commit_incomplete_all_or_nothing (w : CXIWriter)
    (hinit : w.InInitializedState)
    (_hpend : ∃ p ∈ w.cxi_stacks, p.2.data_to_write.isSome)
    (hmiss : ∃ p ∈ w.cxi_stacks, p.2.data_to_write = none) :
    w.write_stack_slice_and_increment.1 = w ∧
      (w.write_stack_slice_and_increment.2).isSome := by
  obtain ⟨ho, hfo, hi⟩ := hinit
  unfold CXIWriter.write_stack_slice_and_increment
  simp only [ho, hi]
  by_cases hc : w.max_num_slices ≤ w.curr_slice
  · simp [hc]
  · have hsome := findIncomplete_of_missing w.cxi_stacks hmiss
    cases hfi : findIncomplete w.cxi_stacks with
    | some p => simp [hc, hfi]
    | none => rw [hfi] at hsome; simp at hsome

/-- Witness for C2: a capacity-5 writer with two integer series, one of which
has a pending value and one of which does not; the commit fails and the state
is untouched. -/
theorem commit_incomplete_all_or_nothing_witness :
    ((((((CXIWriter.new 5).add_stack_to_writer "a" "/a" (.vInt 0)).1.add_stack_to_writer
        "b" "/b" (.vInt 0)).1.initialize_stacks).1.append_to_stack "a" (.vInt 1)).1.write_stack_slice_and_increment).1 =
      (((((CXIWriter.new 5).add_stack_to_writer "a" "/a" (.vInt 0)).1.add_stack_to_writer
        "b" "/b" (.vInt 0)).1.initialize_stacks).1.append_to_stack "a" (.vInt 1)).1 ∧
    ((((((CXIWriter.new 5).add_stack_to_writer "a" "/a" (.vInt 0)).1.add_stack_to_writer
        "b" "/b" (.vInt 0)).1.initialize_stacks).1.append_to_stack "a" (.vInt 1)).1.write_stack_slice_and_increment).2.isSome :=
  commit_incomplete_all_or_nothing _ ⟨by decide, by decide, by decide⟩
    ⟨("a", ⟨.tInt, [1], some (.vInt 1), "/a"⟩), by decide, by decide⟩
    ⟨("b", ⟨.tInt, [1], none, "/b"⟩), by decide, by decide⟩

theorem append_data_ok (st st1 : Stack) (d : Value)
    (h : st.append_data d = .ok st1) :
    st.data_to_write = none ∧ pyTypeOf d = st.data_type ∧
      sliceShape d = st.data_shape ∧ st1 = { st with data_to_write := some d } := by
  unfold Stack.append_data at h
  split at h
  · simp at h
  · split at h
    · simp at h
    · split at h
      · simp at h
      · rename_i h1 h2 h3
        cases h
        refine ⟨Option.not_isSome_iff_eq_none.mp h1, ?_, ?_, rfl⟩
        · by_contra hne
          exact h2 hne
        · by_contra hne
          exact h3 hne

theorem append_to_stack_ok (w w1 : CXIWriter) (name : String) (d : Value)
    (h : w.append_to_stack name d = (w1, none)) :
    ∃ st, validate_data d = none ∧ w.initialized = true ∧
      alookup w.cxi_stacks name = some st ∧ st.data_to_write = none ∧
      pyTypeOf d = st.data_type ∧ sliceShape d = st.data_shape ∧
      w1 = { w with
              cxi_stacks := aset w.cxi_stacks name { st with data_to_write := some d } } := by
  unfold CXIWriter.append_to_stack at h
  split at h
  · simp at h
  · rename_i hv
    split at h
    · simp at h
    · rename_i hi
      split at h
      · simp at h
      · rename_i st hl
        split at h
        · simp at h
        · rename_i st1 ha
          obtain ⟨h1, h2, h3, h4⟩ := append_data_ok st st1 d ha
          simp only [Prod.mk.injEq] at h
          exact ⟨st, hv, Bool.not_eq_false _ ▸ Bool.of_not_eq_false hi, hl, h1, h2, h3,
            by rw [← h.1, h4]⟩

/-- Claim C7: double-append rejection.  If an append to a series succeeded,
then a second append to the same series before any commit always fails and
changes nothing: the first pending buffer, the slice counter and every other
series are untouched. -/
theorem double_append_rejected (w w1 : CXIWriter) (name : String) (d1 d2 : Value)
    (h : w.append_to_stack name d1 = (w1, none)) :
    (w1.append_to_stack name d2).1 = w1 ∧
      ((w1.append_to_stack name d2).2).isSome := by
  obtain ⟨st, hv, hi, hl, hp, ht, hs, hw1⟩ := append_to_stack_ok w w1 name d1 h
  have hw1init : w1.initialized = true := by rw [hw1]; exact hi
  have hw1look : alookup w1.cxi_stacks name = some { st with data_to_write := some d1 } := by
    rw [hw1]
    exact alookup_aset_self w.cxi_stacks name _
  unfold CXIWriter.append_to_stack
  cases hv2 : validate_data d2 with
  | some e => simp
  | none =>
    simp only [hw1init, Bool.true_eq_false, if_false, hw1look]
    unfold Stack.append_data
    simp

/-- Witness for C7: after a successful append of `1` to series `det`, a second
append of `2` fails and leaves the writer untouched. -/
theorem double_append_rejected_witness :
    ((((CXIWriter.new 5).add_stack_to_writer "det" "/d" (.vInt 0)).1.initialize_stacks.1.append_to_stack
        "det" (.vInt 1)).1.append_to_stack "det" (.vInt 2)).1 =
      (((CXIWriter.new 5).add_stack_to_writer "det" "/d" (.vInt 0)).1.initialize_stacks.1.append_to_stack
        "det" (.vInt 1)).1 ∧
    ((((CXIWriter.new 5).add_stack_to_writer "det" "/d" (.vInt 0)).1.initialize_stacks.1.append_to_stack
        "det" (.vInt 1)).1.append_to_stack "det" (.vInt 2)).2.isSome :=
  double_append_rejected
    ((CXIWriter.new 5).add_stack_to_writer "det" "/d" (.vInt 0)).1.initialize_stacks.1
    (((CXIWriter.new 5).add_stack_to_writer "det" "/d" (.vInt 0)).1.initialize_stacks.1.append_to_stack
      "det" (.vInt 1)).1
    "det" (.vInt 1) (.vInt 2) (by decide)

/-- The per-slice driver of the demonstration loop at the bottom of the
source: append one value to the named series, then commit the slice; stop at
the first failure.  `appendCommitLoop` iterates it over a list of values. -/
def appendCommit (name : String) (v : Value) (w : CXIWriter) :
    CXIWriter × Option String :=
  match w.append_to_stack name v with
  | (w1, some e) => (w1, some e)
  | (w1, none) =>
    match w1.write_stack_slice_and_increment with
    | (w2, some e) => (w2, some e)
    | (w2, none) => (w2, none)

def appendCommitLoop (name : String) (vals : List Value) (w : CXIWriter) :
    CXIWriter × Option String :=
  match vals with
  | [] => (w, none)
  | v :: rest =>
    match appendCommit name v w with
    | (w1, some e) => (w1, some e)
    | (w1, none) => appendCommitLoop name rest w1

/-- A capacity-5 writer with the single integer series `det` (initial value 0),
just initialized. -/
def cap5Writer : CXIWriter :=
  (((CXIWriter.new 5).add_stack_to_writer "det" "/data" (.vInt 0)).1.initialize_stacks).1

/-- `cap5Writer` after four successful append-commit cycles with values 1–4. -/
def cap5AfterCommits : CXIWriter × Option String :=
  appendCommitLoop "det" [.vInt 1, .vInt 2, .vInt 3, .vInt 4] cap5Writer

/-- Claim C5: capacity boundary.  With capacity 5, after initialization (slice
counter 1) and 4 successful commits (counter 5), a further commit fails with
the capacity-exhausted error and changes nothing (so every later commit fails
the same way), and the 5 written slices, indices 0 through 4, survive the
truncation performed at close. -/
theorem capacity_boundary_cap5 :
    cap5Writer.curr_slice = 1 ∧
    cap5AfterCommits.2 = none ∧
    cap5AfterCommits.1.curr_slice = 5 ∧
    cap5AfterCommits.1.write_stack_slice_and_increment =
      (cap5AfterCommits.1,
       some "The file already holds the maximum allowed number of slices, and should be closed") ∧
    cap5AfterCommits.1.write_stack_slice_and_increment.1.close_file.2 = none ∧
    alookup cap5AfterCommits.1.write_stack_slice_and_increment.1.close_file.1.fh.objs "/data" =
      some (.stackDS [1] 5 1
        [some (.vInt 0), some (.vInt 1), some (.vInt 2), some (.vInt 3), some (.vInt 4)]) := by
  decide

/-- A capacity-3 single-series run with exactly one commit, then close. -/
def oneCommitRunCap3 : CXIWriter × Option String :=
  (appendCommitLoop "s" [.vInt 1]
    (((CXIWriter.new 3).add_stack_to_writer "s" "/p" (.vInt 0)).1.initialize_stacks).1).1.close_file

/-- A capacity-2 single-series run with exactly one commit, then close. -/
def oneCommitRunCap2 : CXIWriter × Option String :=
  (appendCommitLoop "s" [.vInt 1]
    (((CXIWriter.new 2).add_stack_to_writer "s" "/p" (.vInt 0)).1.initialize_stacks).1).1.close_file

/-- Counterexample to claim C1 as stated.  With capacity 3 and N = 1
successful commit, the on-disk leading-axis length after close is 2, not N = 1
(the initial slice written by initialization counts too); and with capacity 2
and N = 1 the final length is 2, which *does* equal the pre-allocated
capacity. -/
theorem series_length_counterexample :
    oneCommitRunCap3.2 = none ∧
    alookup oneCommitRunCap3.1.fh.objs "/p"
      = some (.stackDS [1] 3 1 [some (.vInt 0), some (.vInt 1)]) ∧
    ([some (Value.vInt 0), some (Value.vInt 1)].length = 2 ∧ (2 : Nat) ≠ 1) ∧
    oneCommitRunCap2.2 = none ∧
    alookup oneCommitRunCap2.1.fh.objs "/p"
      = some (.stackDS [1] 2 1 [some (.vInt 0), some (.vInt 1)]) ∧
    oneCommitRunCap2.1.max_num_slices = 2 := by
  decide

theorem appendCommit_steady (name : String) (v : Value) (w : CXIWriter)
    (st : Stack) (sh : List Nat) (cap ch : Nat) (sl : List (Option Value))
    (hopen : w.file_is_open = true) (hfh : w.fh.isOpen = true)
    (hinit : w.initialized = true)
    (hstacks : w.cxi_stacks = [(name, st)])
    (hpend : st.data_to_write = none)
    (hv : validate_data v = none)
    (ht : pyTypeOf v = st.data_type) (hs : sliceShape v = st.data_shape)
    (hds : alookup w.fh.objs st.path = some (.stackDS sh cap ch sl))
    (hcap : w.curr_slice < w.max_num_slices)
    (hlen : w.curr_slice < sl.length) :
    appendCommit name v w =
      ({ w with cxi_stacks := [(name, st)],
                curr_slice := w.curr_slice + 1,
                fh := { w.fh with objs := aset w.fh.objs st.path (.stackDS sh cap ch (sl.set w.curr_slice (some v))) } }, none) := by
  have hst : ({ st with data_to_write := none } : Stack) = st := by
    cases st
    simp_all
  simp [appendCommit, CXIWriter.append_to_stack, Stack.append_data,
        CXIWriter.write_stack_slice_and_increment, writeAll, findIncomplete,
        Stack.write_slice, h5set_slice, alookup, aset, hv, hopen, hfh, hinit,
        hstacks, hpend, ht, hs, hds, hlen, Nat.not_le.mpr hcap, hst]

theorem appendCommitLoop_steady (name : String) (v : Value) (n : Nat) :
    ∀ (w : CXIWriter) (st : Stack) (sh : List Nat) (cap ch : Nat)
      (sl : List (Option Value)),
    w.file_is_open = true → w.fh.isOpen = true → w.initialized = true →
    w.cxi_stacks = [(name, st)] → st.data_to_write = none →
    validate_data v = none → pyTypeOf v = st.data_type →
    sliceShape v = st.data_shape →
    alookup w.fh.objs st.path = some (.stackDS sh cap ch sl) →
    w.curr_slice + n ≤ w.max_num_slices → w.curr_slice + n ≤ sl.length →
    ∃ objs2 sl2,
      appendCommitLoop name (List.replicate n v) w =
        ({ w with cxi_stacks := [(name, st)],
                  curr_slice := w.curr_slice + n,
                  fh := { w.fh with objs := objs2 } }, none) ∧
      alookup objs2 st.path = some (.stackDS sh cap ch sl2) ∧
      sl2.length = sl.length := by
  induction n with
  | zero =>
    intro w st sh cap ch sl hopen hfh hinit hstacks hpend hv ht hs hds hcap hlen
    refine ⟨w.fh.objs, sl, ?_, hds, rfl⟩
    rw [← hstacks]
    rfl
  | succ n ih =>
    intro w st sh cap ch sl hopen hfh hinit hstacks hpend hv ht hs hds hcap hlen
    have hstep := appendCommit_steady name v w st sh cap ch sl hopen hfh hinit
      hstacks hpend hv ht hs hds (by omega) (by omega)
    rw [List.replicate_succ]
    simp only [appendCommitLoop, hstep]
    set w1 : CXIWriter :=
      { w with cxi_stacks := [(name, st)],
               curr_slice := w.curr_slice + 1,
               fh := { w.fh with objs := aset w.fh.objs st.path (.stackDS sh cap ch (sl.set w.curr_slice (some v))) } } with hw1
    have hds1 : alookup w1.fh.objs st.path =
        some (.stackDS sh cap ch (sl.set w.curr_slice (some v))) :=
      alookup_aset_self w.fh.objs st.path _
    obtain ⟨objs2, sl2, hloop, hlook2, hlen2⟩ :=
      ih w1 st sh cap ch (sl.set w.curr_slice (some v)) hopen hfh hinit rfl hpend
        hv ht hs hds1 (by simp [hw1]; omega) (by simp [hw1]; omega)
    refine ⟨objs2, sl2, ?_, hlook2, by simpa using hlen2⟩
    rw [hloop]
    have harith : w.curr_slice + 1 + n = w.curr_slice + (n + 1) := by omega
    simp [hw1, harith]

theorem initSingle_eval (cap : Nat) (hcap : 0 < cap) :
    (((CXIWriter.new cap).add_stack_to_writer "s" "/p" (.vInt 0)).1.initialize_stacks).1 =
      { cxi_stacks := [("s", ⟨.tInt, [1], none, "/p"⟩)],
        pending_simple_entries := [],
        curr_slice := 1,
        max_num_slices := cap,
        file_is_open := true,
        initialized := true,
        fh := { isOpen := true,
                objs := [("/p", .stackDS [1] cap 1 ((List.replicate cap (none : Option Value)).set 0 (some (.vInt 0))))] } } := by
  simp [CXIWriter.new, CXIWriter.add_stack_to_writer, validate_data, Stack.init,
        pyTypeOf, sliceShape, isScalarLike, aset, CXIWriter.initialize_stacks,
        initAll, Stack.write_initial_slice, h5create_stack, h5set_slice,
        alookup, hcap, flushAll]

/-- A full single-series session with capacity `cap`: register series `s` at
path `/p` with initial value 0, initialize, run `N` append-commit cycles, and
close (propagating the first error, if any). -/
def runSeries (cap N : Nat) : CXIWriter × Option String :=
  match appendCommitLoop "s" (List.replicate N (.vInt 1))
      ((((CXIWriter.new cap).add_stack_to_writer "s" "/p" (.vInt 0)).1.initialize_stacks).1) with
  | (w, some e) => (w, some e)
  | (w, none) => w.close_file

/-- Claim C1 (amended): for a registered series, after a successful
initialization, `N` successful commits and a successful close, the on-disk
leading-axis length is `N + 1` — the initial slice written by initialization
plus the `N` committed slices — and it equals the pre-allocated capacity
exactly when `N + 1 = capacity`. -/
theorem series_length_after_commits (cap N : Nat) (hN : N + 1 ≤ cap) :
    (runSeries cap N).2 = none ∧
    ∃ sl, alookup (runSeries cap N).1.fh.objs "/p" = some (.stackDS [1] cap 1 sl) ∧
      sl.length = N + 1 ∧ (sl.length = cap ↔ N + 1 = cap) := by
  have hcap : 0 < cap := by omega
  have hW := initSingle_eval cap hcap
  obtain ⟨objs2, sl2, hloop, hlook2, hlen2⟩ :=
    appendCommitLoop_steady "s" (.vInt 1) N
      ({ cxi_stacks := [("s", ⟨.tInt, [1], none, "/p"⟩)],
         pending_simple_entries := [],
         curr_slice := 1,
         max_num_slices := cap,
         file_is_open := true,
         initialized := true,
         fh := { isOpen := true,
                 objs := [("/p", .stackDS [1] cap 1 ((List.replicate cap (none : Option Value)).set 0 (some (.vInt 0))))] } })
      ⟨.tInt, [1], none, "/p"⟩ [1] cap 1
      ((List.replicate cap (none : Option Value)).set 0 (some (.vInt 0)))
      rfl rfl rfl rfl rfl rfl rfl rfl (by simp [alookup]) (by simp; omega)
      (by simp; omega)
  unfold runSeries
  rw [hW, hloop]
  simp only []
  constructor
  · simp [CXIWriter.close_file, finalizeAll, Stack.finalize, h5resize, hlook2,
          (by omega : 1 + N ≤ cap)]
  · refine ⟨resizeSlices sl2 (1 + N), ?_, ?_, ?_⟩
    · simp [CXIWriter.close_file, finalizeAll, Stack.finalize, h5resize, hlook2,
            (by omega : 1 + N ≤ cap), h5close, alookup_aset_self]
    · rw [resizeSlices_length]
      omega
    · rw [resizeSlices_length]
      omega

/-- Witness for the amended C1: capacity 3 with a single commit gives on-disk
length 2. -/
theorem series_length_after_commits_witness :
    (runSeries 3 1).2 = none ∧
    ∃ sl, alookup (runSeries 3 1).1.fh.objs "/p" = some (.stackDS [1] 3 1 sl) ∧
      sl.length = 1 + 1 ∧ (sl.length = 3 ↔ 1 + 1 = 3) :=
  series_length_after_commits 3 1 (by decide)

/-- Claim C8: overwrite semantics of the immediate-write path.  On an
initialized writer, writing to an occupied path with `overwrite=false` raises
and leaves everything (in particular the occupant) untouched; with
`overwrite=true` the old data at that path is deleted and fully replaced by
the new value, every other path being unaffected. -/
theorem write_entry_overwrite_semantics (w : CXIWriter) (p : String) (d : Value)
    (obj : H5Obj) (hinit : w.InInitializedState)
    (hocc : alookup w.fh.objs p = some obj) :
    ((w.write_entry p d false).1 = w ∧ ((w.write_entry p d false).2).isSome) ∧
    (validate_data d = none →
      (w.write_entry p d true).2 = none ∧
      alookup (w.write_entry p d true).1.fh.objs p = some (.simpleDS d) ∧
      (∀ q, q ≠ p → alookup (w.write_entry p d true).1.fh.objs q = alookup w.fh.objs q) ∧
      (w.write_entry p d true).1.cxi_stacks = w.cxi_stacks ∧
      (w.write_entry p d true).1.curr_slice = w.curr_slice) := by
  obtain ⟨ho, hfo, hi⟩ := hinit
  constructor
  · cases hv : validate_data d with
    | some e => simp [CXIWriter.write_entry, hv]
    | none => simp [CXIWriter.write_entry, hv, hi, write_simple_entry,
                    h5contains, hfo, hocc]
  · intro hv
    simp [CXIWriter.write_entry, hv, hi, write_simple_entry, h5contains, hfo,
          hocc, h5delete, h5create_simple, alookup_aremove_self, alookup_append,
          alookup]
    intro q hq
    rw [alookup_aremove_ne _ _ _ hq]
    have hpq : ¬p = q := fun e => hq e.symm
    cases hcq : alookup w.fh.objs q <;> simp [hpq]

/-- An initialized writer whose container already holds a one-shot dataset at
path `/m`. -/
def occWriter : CXIWriter :=
  ((CXIWriter.new 5).initialize_stacks.1.write_entry "/m" (.vStr "x") false).1

/-- Witness for C8: on `occWriter`, rewriting `/m` without overwrite fails and
changes nothing; with overwrite the one-shot dataset is replaced. -/
theorem write_entry_overwrite_semantics_witness :
    occWriter.InInitializedState ∧
    alookup occWriter.fh.objs "/m" = some (.simpleDS (.vStr "x")) ∧
    (((occWriter.write_entry "/m" (.vInt 7) false).1 = occWriter ∧
      ((occWriter.write_entry "/m" (.vInt 7) false).2).isSome) ∧
     (validate_data (.vInt 7) = none →
       (occWriter.write_entry "/m" (.vInt 7) true).2 = none ∧
       alookup (occWriter.write_entry "/m" (.vInt 7) true).1.fh.objs "/m" = some (.simpleDS (.vInt 7)) ∧
       (∀ q, q ≠ "/m" → alookup (occWriter.write_entry "/m" (.vInt 7) true).1.fh.objs q = alookup occWriter.fh.objs q) ∧
       (occWriter.write_entry "/m" (.vInt 7) true).1.cxi_stacks = occWriter.cxi_stacks ∧
       (occWriter.write_entry "/m" (.vInt 7) true).1.curr_slice = occWriter.curr_slice)) :=
  ⟨⟨by decide, by decide, by decide⟩, by decide,
   write_entry_overwrite_semantics occWriter "/m" (.vInt 7) (.simpleDS (.vStr "x"))
     ⟨by decide, by decide, by decide⟩ (by decide)⟩

/-- Claim C3: `write_entry` across the lifecycle.  In the `Closed` state
(reached from `Initialized` by `close_file`; the source's closed state keeps
`_initialized` set) every `write_entry` raises and changes nothing — the
immediate-write path hits the released h5py handle.  In `Open-Uninitialized`
it validates the value and only enqueues a `SimpleEntry` at the back of the
FIFO queue.  In `Initialized` it validates the value, leaves the queue alone
and writes immediately (a free path receives the one-shot dataset at once). -/
theorem write_entry_lifecycle (w : CXIWriter) (p : String) (d : Value) (ow : Bool) :
    (w.InClosedState →
      (w.write_entry p d ow).1 = w ∧ ((w.write_entry p d ow).2).isSome) ∧
    (w.OpenUninit → validate_data d = none →
      w.write_entry p d ow =
        ({ w with pending_simple_entries := w.pending_simple_entries ++ [⟨p, d, ow⟩] }, none)) ∧
    (w.InInitializedState → validate_data d = none →
      (w.write_entry p d ow).1.pending_simple_entries = w.pending_simple_entries ∧
      (alookup w.fh.objs p = none →
        (w.write_entry p d ow).2 = none ∧
        alookup (w.write_entry p d ow).1.fh.objs p = some (.simpleDS d))) := by
  refine ⟨?_, ?_, ?_⟩
  · rintro ⟨ho, hfo, hi⟩
    cases hv : validate_data d with
    | some e => simp [CXIWriter.write_entry, hv]
    | none => simp [CXIWriter.write_entry, hv, hi, write_simple_entry, h5contains, hfo]
  · rintro ⟨ho, hfo, hi⟩ hv
    simp [CXIWriter.write_entry, hv, hi]
  · rintro ⟨ho, hfo, hi⟩ hv
    constructor
    · cases hfree : alookup w.fh.objs p with
      | none => simp [CXIWriter.write_entry, hv, hi, write_simple_entry,
                      h5contains, hfo, hfree, h5create_simple]
      | some o =>
        by_cases how : ow = true
        · simp [CXIWriter.write_entry, hv, hi, write_simple_entry, h5contains,
                hfo, hfree, how, h5delete, h5create_simple, alookup_aremove_self]
        · simp [CXIWriter.write_entry, hv, hi, write_simple_entry, h5contains,
                hfo, hfree, how]
    · intro hfree
      simp [CXIWriter.write_entry, hv, hi, write_simple_entry, h5contains, hfo,
            hfree, h5create_simple, alookup_append, alookup]

/-- A writer that was initialized (empty registry) and then closed: the
specification's `Closed` state. -/
def closedOnInit : CXIWriter := ((CXIWriter.new 2).initialize_stacks.1.close_file).1

/-- Witness for C3: the three lifecycle behaviours of `write_entry` at
concrete writers — failure after close, enqueueing before initialization,
immediate write after initialization. -/
theorem write_entry_lifecycle_witness :
    ((closedOnInit.write_entry "/x" (.vInt 1) false).1 = closedOnInit ∧
      ((closedOnInit.write_entry "/x" (.vInt 1) false).2).isSome) ∧
    ((CXIWriter.new 2).write_entry "/x" (.vInt 1) false =
      ({ CXIWriter.new 2 with pending_simple_entries :=
          (CXIWriter.new 2).pending_simple_entries ++ [⟨"/x", .vInt 1, false⟩] }, none)) ∧
    (((CXIWriter.new 2).initialize_stacks.1.write_entry "/x" (.vInt 1) false).1.pending_simple_entries =
        (CXIWriter.new 2).initialize_stacks.1.pending_simple_entries ∧
      (alookup (CXIWriter.new 2).initialize_stacks.1.fh.objs "/x" = none →
        ((CXIWriter.new 2).initialize_stacks.1.write_entry "/x" (.vInt 1) false).2 = none ∧
        alookup ((CXIWriter.new 2).initialize_stacks.1.write_entry "/x" (.vInt 1) false).1.fh.objs "/x" =
          some (.simpleDS (.vInt 1)))) :=
  ⟨(write_entry_lifecycle closedOnInit "/x" (.vInt 1) false).1
     ⟨by decide, by decide, by decide⟩,
   (write_entry_lifecycle (CXIWriter.new 2) "/x" (.vInt 1) false).2.1
     ⟨by decide, by decide, by decide⟩ (by decide),
   (write_entry_lifecycle (CXIWriter.new 2).initialize_stacks.1 "/x" (.vInt 1) false).2.2
     ⟨by decide, by decide, by decide⟩ (by decide)⟩

/-- Registry-signature preservation: every series present afterwards already
existed under the same name with the same fixed element type tag and shape. -/
def sigPreserved (l l2 : List (String × Stack)) : Prop :=
  ∀ n st2, alookup l2 n = some st2 → ∃ st0, alookup l n = some st0 ∧
    st2.data_type = st0.data_type ∧ st2.data_shape = st0.data_shape

theorem sigPreserved_refl (l : List (String × Stack)) : sigPreserved l l :=
  fun _ st2 h => ⟨st2, h, rfl, rfl⟩

theorem sigPreserved_aset (l : List (String × Stack)) (name : String)
    (st st1 : Stack) (hl : alookup l name = some st)
    (ht : st1.data_type = st.data_type) (hs : st1.data_shape = st.data_shape) :
    sigPreserved l (aset l name st1) := by
  intro n st2 h
  by_cases hn : n = name
  · subst hn
    rw [alookup_aset_self] at h
    cases h
    exact ⟨st, hl, ht, hs⟩
  · rw [alookup_aset_ne _ _ _ _ hn] at h
    exact ⟨st2, h, rfl, rfl⟩

theorem write_slice_sig (st : Stack) (fh : H5File) (i : Nat) :
    (st.write_slice fh i).1.data_type = st.data_type ∧
      (st.write_slice fh i).1.data_shape = st.data_shape ∧
      (st.write_slice fh i).1.path = st.path := by
  unfold Stack.write_slice
  cases hd : st.data_to_write with
  | none => simp
  | some v => cases hs : h5set_slice fh st.path i v <;> simp [hs]

theorem write_initial_slice_sig (st : Stack) (fh : H5File) (cap : Nat) :
    (st.write_initial_slice fh cap).1.data_type = st.data_type ∧
      (st.write_initial_slice fh cap).1.data_shape = st.data_shape ∧
      (st.write_initial_slice fh cap).1.path = st.path := by
  unfold Stack.write_initial_slice
  cases hc : h5create_stack fh st.path cap 1 st.data_shape with
  | error e => simp [hc]
  | ok fh1 =>
    cases hd : st.data_to_write with
    | none => simp
    | some v => cases hs : h5set_slice fh1 st.path 0 v <;> simp [hs]

theorem writeAll_sig (idx : Nat) (l : List (String × Stack)) :
    ∀ fh, sigPreserved l (writeAll idx fh l).1 := by
  induction l with
  | nil => intro fh n st2 h; simp [writeAll, alookup] at h
  | cons a rest ih =>
    intro fh
    obtain ⟨an, ast⟩ := a
    have hsig := write_slice_sig ast fh idx
    unfold writeAll
    cases hw : ast.write_slice fh idx with
    | mk st1 q =>
      obtain ⟨fh1, err⟩ := q
      rw [hw] at hsig
      cases err with
      | some e =>
        intro n st2 h
        simp only [alookup] at h ⊢
        by_cases hn : an = n
        · simp only [hn, if_pos rfl] at h ⊢
          cases h
          exact ⟨ast, by simp, hsig.1, hsig.2.1⟩
        · simp only [if_neg hn] at h ⊢
          exact ⟨st2, h, rfl, rfl⟩
      | none =>
        intro n st2 h
        simp only [alookup] at h ⊢
        by_cases hn : an = n
        · simp only [hn, if_pos rfl] at h ⊢
          cases h
          exact ⟨ast, by simp, hsig.1, hsig.2.1⟩
        · simp only [if_neg hn] at h ⊢
          exact ih fh1 n st2 h

theorem initAll_sig (cap : Nat) (l : List (String × Stack)) :
    ∀ fh, sigPreserved l (initAll cap fh l).1 := by
  induction l with
  | nil => intro fh n st2 h; simp [initAll, alookup] at h
  | cons a rest ih =>
    intro fh
    obtain ⟨an, ast⟩ := a
    have hsig := write_initial_slice_sig ast fh cap
    unfold initAll
    cases hw : ast.write_initial_slice fh cap with
    | mk st1 q =>
      obtain ⟨fh1, err⟩ := q
      rw [hw] at hsig
      cases err with
      | some e =>
        intro n st2 h
        simp only [alookup] at h ⊢
        by_cases hn : an = n
        · simp only [hn, if_pos rfl] at h ⊢
          cases h
          exact ⟨ast, by simp, hsig.1, hsig.2.1⟩
        · simp only [if_neg hn] at h ⊢
          exact ⟨st2, h, rfl, rfl⟩
      | none =>
        intro n st2 h
        simp only [alookup] at h ⊢
        by_cases hn : an = n
        · simp only [hn, if_pos rfl] at h ⊢
          cases h
          exact ⟨ast, by simp, hsig.1, hsig.2.1⟩
        · simp only [if_neg hn] at h ⊢
          exact ih fh1 n st2 h

theorem append_to_stack_sig (w : CXIWriter) (name2 : String) (d2 : Value) :
    sigPreserved w.cxi_stacks ((w.append_to_stack name2 d2).1).cxi_stacks := by
  unfold CXIWriter.append_to_stack
  cases hv : validate_data d2 with
  | some e => exact sigPreserved_refl _
  | none =>
    cases hi : w.initialized with
    | false => simp only [hi, if_pos rfl]; exact sigPreserved_refl _
    | true =>
      cases hl : alookup w.cxi_stacks name2 with
      | none =>
        simp only [hi, hl, Bool.true_eq_false, if_false]
        exact sigPreserved_refl _
      | some st =>
        cases ha : st.append_data d2 with
        | error e =>
          simp only [hi, hl, ha, Bool.true_eq_false, if_false]
          exact sigPreserved_refl _
        | ok st1 =>
          obtain ⟨h1, h2, h3, h4⟩ := append_data_ok st st1 d2 ha
          simp only [hi, hl, ha, Bool.true_eq_false, if_false]
          subst h4
          exact sigPreserved_aset _ _ _ _ hl rfl rfl

theorem commit_sig (w : CXIWriter) :
    sigPreserved w.cxi_stacks (w.write_stack_slice_and_increment.1).cxi_stacks := by
  unfold CXIWriter.write_stack_slice_and_increment
  cases ho : w.file_is_open with
  | false => exact sigPreserved_refl _
  | true =>
  cases hi : w.initialized with
  | false => exact sigPreserved_refl _
  | true =>
  by_cases hc : w.curr_slice ≥ w.max_num_slices
  · simp only [ho, hi, if_pos hc, Bool.true_eq_false, if_false]
    simp only [ne_eq, not_true_eq_false, if_false]
    exact sigPreserved_refl _
  · cases hf : findIncomplete w.cxi_stacks with
    | some p =>
      simp only [ho, hi, hf, if_neg hc, Bool.true_eq_false, if_false]
      simp only [ne_eq, not_true_eq_false, if_false]
      exact sigPreserved_refl _
    | none =>
      have hw := writeAll_sig w.curr_slice w.cxi_stacks w.fh
      simp only [ho, hi, hf, if_neg hc, Bool.true_eq_false, if_false]
      simp only [ne_eq, not_true_eq_false, if_false]
      cases hwa : writeAll w.curr_slice w.fh w.cxi_stacks with
      | mk stacks1 q =>
        obtain ⟨fh1, err⟩ := q
        rw [hwa] at hw
        cases err with
        | some e => simp only [hwa]; exact hw
        | none => simp only [hwa]; exact hw

theorem init_sig (w : CXIWriter) :
    sigPreserved w.cxi_stacks (w.initialize_stacks.1).cxi_stacks := by
  unfold CXIWriter.initialize_stacks
  cases ho : w.file_is_open with
  | false => exact sigPreserved_refl _
  | true =>
  cases hi : w.initialized with
  | true => exact sigPreserved_refl _
  | false =>
    have hs := initAll_sig w.max_num_slices w.cxi_stacks w.fh
    simp only [ho, hi, ne_eq, not_true_eq_false, if_false, Bool.false_eq_true]
    cases hia : initAll w.max_num_slices w.fh w.cxi_stacks with
    | mk stacks1 q =>
      obtain ⟨fh1, err⟩ := q
      rw [hia] at hs
      cases err with
      | some e => simp only [hia]; exact hs
      | none =>
        simp only [hia]
        cases hfl : flushAll fh1 w.pending_simple_entries with
        | mk fh2 err2 =>
          cases err2 with
          | some e => simp only; exact hs
          | none => simp only; exact hs

theorem close_sig (w : CXIWriter) :
    sigPreserved w.cxi_stacks (w.close_file.1).cxi_stacks := by
  unfold CXIWriter.close_file
  cases ho : w.file_is_open with
  | false => exact sigPreserved_refl _
  | true =>
    simp only [ho, ne_eq, not_true_eq_false, if_false]
    cases hfa : finalizeAll w.curr_slice w.fh w.cxi_stacks with
    | mk fh1 err =>
      cases err with
      | some e => exact sigPreserved_refl _
      | none => exact sigPreserved_refl _

theorem append_data_mismatch (st : Stack) (d : Value)
    (hmis : pyTypeOf d ≠ st.data_type ∨ sliceShape d ≠ st.data_shape) :
    ∃ e, st.append_data d = .error e := by
  unfold Stack.append_data
  by_cases hp : st.data_to_write.isSome
  · exact ⟨"Cannot append data to the stack entry at " ++ st.path ++ ". The previous slice has not been written yet.", by simp [hp]⟩
  · by_cases ht : pyTypeOf d ≠ st.data_type
    · exact ⟨"The type of the input data does not match what is already present in the stack.", by simp [hp, ht]⟩
    · have hs : sliceShape d ≠ st.data_shape := hmis.resolve_left ht
      exact ⟨"The shape of the input data does not match what is already present in the stack.", by simp [hp, ht, hs]⟩

/-- Claim C6: type/shape immutability.  A series' element type tag and shape,
fixed at registration, are never changed by appends, commits, initialization
or close (`sigPreserved` conjuncts); and an append whose value's type or shape
differs from the fixed ones fails and leaves the writer — in particular the
series' pending buffer — completely unchanged, the error being the wrapped
type- or shape-mismatch message whenever the buffer was free on an initialized
writer (with an occupied buffer the call still fails unchanged, but with the
double-append message). -/
theorem type_shape_immutability (w : CXIWriter) (name : String) (d : Value)
    (st : Stack)
    (hlook : alookup w.cxi_stacks name = some st)
    (hval : validate_data d = none)
    (hmis : pyTypeOf d ≠ st.data_type ∨ sliceShape d ≠ st.data_shape) :
    ((w.append_to_stack name d).1 = w ∧ ((w.append_to_stack name d).2).isSome) ∧
    (w.initialized = true → st.data_to_write = none →
      ((w.append_to_stack name d).2 =
          some ("Error appending to stack " ++ name ++ ": " ++
            "The type of the input data does not match what is already present in the stack.") ∨
       (w.append_to_stack name d).2 =
          some ("Error appending to stack " ++ name ++ ": " ++
            "The shape of the input data does not match what is already present in the stack."))) ∧
    (∀ (name2 : String) (d2 : Value),
       sigPreserved w.cxi_stacks ((w.append_to_stack name2 d2).1).cxi_stacks) ∧
    sigPreserved w.cxi_stacks (w.write_stack_slice_and_increment.1).cxi_stacks ∧
    sigPreserved w.cxi_stacks (w.initialize_stacks.1).cxi_stacks ∧
    sigPreserved w.cxi_stacks (w.close_file.1).cxi_stacks := by
  refine ⟨?_, ?_, fun name2 d2 => append_to_stack_sig w name2 d2, commit_sig w,
          init_sig w, close_sig w⟩
  · cases hi : w.initialized with
    | false => simp [CXIWriter.append_to_stack, hval, hi]
    | true =>
      obtain ⟨e, he⟩ := append_data_mismatch st d hmis
      simp [CXIWriter.append_to_stack, hval, hi, hlook, he]
  · intro hi hpend
    by_cases ht : pyTypeOf d ≠ st.data_type
    · left
      simp [CXIWriter.append_to_stack, hval, hi, hlook, Stack.append_data,
            hpend, ht]
    · right
      have hs : sliceShape d ≠ st.data_shape := hmis.resolve_left ht
      simp [CXIWriter.append_to_stack, hval, hi, hlook, Stack.append_data,
            hpend, ht, hs]

/-- A capacity-5 writer with a 2×2 array series `det`, initialized. -/
def arrWriter : CXIWriter :=
  (((CXIWriter.new 5).add_stack_to_writer "det" "/d" (.vArr [2, 2] [0, 0, 0, 0])).1.initialize_stacks).1

/-- Witness for C6: appending a 3×2 array to the 2×2 series `det` of
`arrWriter` fails with the wrapped shape error and leaves the writer
unchanged. -/
theorem type_shape_immutability_witness :
    ((arrWriter.append_to_stack "det" (.vArr [3, 2] [0, 0, 0, 0, 0, 0])).1 = arrWriter ∧
      ((arrWriter.append_to_stack "det" (.vArr [3, 2] [0, 0, 0, 0, 0, 0])).2).isSome) ∧
    (arrWriter.initialized = true →
      (⟨.tNdarray, [2, 2], none, "/d"⟩ : Stack).data_to_write = none →
      ((arrWriter.append_to_stack "det" (.vArr [3, 2] [0, 0, 0, 0, 0, 0])).2 =
          some ("Error appending to stack " ++ "det" ++ ": " ++
            "The type of the input data does not match what is already present in the stack.") ∨
       (arrWriter.append_to_stack "det" (.vArr [3, 2] [0, 0, 0, 0, 0, 0])).2 =
          some ("Error appending to stack " ++ "det" ++ ": " ++
            "The shape of the input data does not match what is already present in the stack."))) ∧
    (∀ (name2 : String) (d2 : Value),
       sigPreserved arrWriter.cxi_stacks ((arrWriter.append_to_stack name2 d2).1).cxi_stacks) ∧
    sigPreserved arrWriter.cxi_stacks (arrWriter.write_stack_slice_and_increment.1).cxi_stacks ∧
    sigPreserved arrWriter.cxi_stacks (arrWriter.initialize_stacks.1).cxi_stacks ∧
    sigPreserved arrWriter.cxi_stacks (arrWriter.close_file.1).cxi_stacks :=
  type_shape_immutability arrWriter "det" (.vArr [3, 2] [0, 0, 0, 0, 0, 0])
    ⟨.tNdarray, [2, 2], none, "/d"⟩ (by decide) (by decide) (by decide)

theorem finalizeAll_prefix (cs : Nat) (pre : List (String × Stack)) :
    ∀ (fh : H5File), fh.isOpen = true →
    (∀ p ∈ pre, p.2.data_to_write = none ∧ ∃ sh cap ch sl,
        alookup fh.objs p.2.path = some (.stackDS sh cap ch sl) ∧ cs ≤ cap) →
    pre.Pairwise (fun a b => a.2.path ≠ b.2.path) →
    ∀ tail, ∃ fh1,
      finalizeAll cs fh (pre ++ tail) = finalizeAll cs fh1 tail ∧
      fh1.isOpen = true ∧
      (∀ p ∈ pre, ∃ sh cap ch sl,
        alookup fh.objs p.2.path = some (.stackDS sh cap ch sl) ∧
        alookup fh1.objs p.2.path = some (.stackDS sh cap ch (resizeSlices sl cs))) ∧
      (∀ q, (∀ p ∈ pre, q ≠ p.2.path) → alookup fh1.objs q = alookup fh.objs q) := by
  induction pre with
  | nil =>
    intro fh hfh hp hpw tail
    exact ⟨fh, rfl, hfh, by simp, fun q _ => rfl⟩
  | cons a pre ih =>
    intro fh hfh hp hpw tail
    obtain ⟨hpa, sh, cap, ch, sl, hla, hcap⟩ := hp a (List.mem_cons_self a pre)
    obtain ⟨an, ast⟩ := a
    simp only at hpa hla
    have hpw2 := List.pairwise_cons.mp hpw
    have hpwh : ∀ p2 ∈ pre, ast.path ≠ p2.2.path := hpw2.1
    set fh1 : H5File :=
      { isOpen := true, objs := aset fh.objs ast.path (.stackDS sh cap ch (resizeSlices sl cs)) } with hfh1def
    have hstep : finalizeAll cs fh (((an, ast) :: pre) ++ tail) =
        finalizeAll cs fh1 (pre ++ tail) := by
      simp only [List.cons_append, finalizeAll, Stack.finalize, hpa, h5resize,
                 hfh, hla, if_pos hcap, if_true]
      rw [hfh1def]
      rfl
    have hp2 : ∀ p ∈ pre, p.2.data_to_write = none ∧ ∃ sh2 cap2 ch2 sl2,
        alookup fh1.objs p.2.path = some (.stackDS sh2 cap2 ch2 sl2) ∧ cs ≤ cap2 := by
      intro p hpmem
      obtain ⟨h1, sh2, cap2, ch2, sl2, h2, h3⟩ := hp p (List.mem_cons_of_mem _ hpmem)
      refine ⟨h1, sh2, cap2, ch2, sl2, ?_, h3⟩
      rw [hfh1def]
      simp only
      rw [alookup_aset_ne _ _ _ _ (Ne.symm (hpwh p hpmem))]
      exact h2
    obtain ⟨fh2, heq2, hfh2, hres2, hframe2⟩ := ih fh1 rfl hp2 hpw2.2 tail
    refine ⟨fh2, by rw [hstep, heq2], hfh2, ?_, ?_⟩
    · intro p hpmem
      rcases List.mem_cons.mp hpmem with rfl | hpmem2
      · refine ⟨sh, cap, ch, sl, hla, ?_⟩
        rw [hframe2 ast.path hpwh]
        rw [hfh1def]
        simp only
        exact alookup_aset_self fh.objs ast.path _
      · obtain ⟨sh2, cap2, ch2, sl2, h2, h3⟩ := hres2 p hpmem2
        refine ⟨sh2, cap2, ch2, sl2, ?_, h3⟩
        obtain ⟨h1, sh3, cap3, ch3, sl3, h4, h5⟩ := hp p (List.mem_cons_of_mem _ hpmem2)
        rw [hfh1def] at h2
        simp only at h2
        rw [alookup_aset_ne _ _ _ _ (Ne.symm (hpwh p hpmem2))] at h2
        exact h2
    · intro q hq
      rw [hframe2 q (fun p hpm => hq p (List.mem_cons_of_mem _ hpm))]
      rw [hfh1def]
      simp only
      rw [alookup_aset_ne _ _ _ _ (hq (an, ast) (List.mem_cons_self _ _))]

/-- Claim C9: `close_file` is not atomic across series.  If close is called
while some registered series still holds a pending buffer, then — provided the
series before the first such series in registry order are finalizable (no
pending data, a stack dataset at their path, slice counter within its maximal
leading length, distinct paths) — the call raises, the writer is not marked
closed and the handle is not released, yet every series before the failing one
has already had its dataset truncated to the current slice count. -/
theorem close_file_partial_truncation (w : CXIWriter)
    (pre : List (String × Stack)) (bname : String) (bad : Stack)
    (rest : List (String × Stack))
    (hstacks : w.cxi_stacks = pre ++ (bname, bad) :: rest)
    (hopen : w.file_is_open = true) (hfo : w.fh.isOpen = true)
    (hpre : ∀ p ∈ pre, p.2.data_to_write = none ∧ ∃ sh cap ch sl,
        alookup w.fh.objs p.2.path = some (.stackDS sh cap ch sl) ∧ w.curr_slice ≤ cap)
    (hdist : pre.Pairwise (fun a b => a.2.path ≠ b.2.path))
    (hbad : bad.data_to_write.isSome) :
    ((w.close_file.2).isSome) ∧
    w.close_file.1.file_is_open = true ∧
    w.close_file.1.fh.isOpen = true ∧
    (∀ p ∈ pre, ∃ sh cap ch sl,
      alookup w.fh.objs p.2.path = some (.stackDS sh cap ch sl) ∧
      alookup w.close_file.1.fh.objs p.2.path =
        some (.stackDS sh cap ch (resizeSlices sl w.curr_slice))) := by
  obtain ⟨fh1, heq, hfh1, hres, hframe⟩ :=
    finalizeAll_prefix w.curr_slice pre w.fh hfo hpre hdist ((bname, bad) :: rest)
  cases hb : bad.data_to_write with
  | none => rw [hb] at hbad; simp at hbad
  | some v =>
    have hbadfin : finalizeAll w.curr_slice fh1 ((bname, bad) :: rest) =
        (fh1, some ("Cannot finalize the stack at " ++ bad.path ++
                    ", there is data waiting to be written.")) := by
      simp only [finalizeAll, Stack.finalize, hb]
    have hclose : w.close_file = ({ w with fh := fh1 },
        some ("Cannot finalize the stack at " ++ bad.path ++
              ", there is data waiting to be written.")) := by
      unfold CXIWriter.close_file
      simp only [hopen, ne_eq, not_true_eq_false, if_false, hstacks, heq,
                 hbadfin]
    rw [hclose]
    exact ⟨by simp, hopen, hfh1, hres⟩

/-- A capacity-3 writer with series `a` (no pending data) and `b` (pending
data), in registry order, after initialization. -/
def partialCloseWriter : CXIWriter :=
  (((((CXIWriter.new 3).add_stack_to_writer "a" "/a" (.vInt 0)).1.add_stack_to_writer
      "b" "/b" (.vInt 0)).1.initialize_stacks).1.append_to_stack "b" (.vInt 7)).1

/-- Witness for C9: closing `partialCloseWriter` fails on `b`, leaves the file
open, and has already truncated the dataset of `a`. -/
theorem close_file_partial_truncation_witness :
    ((partialCloseWriter.close_file.2).isSome) ∧
    partialCloseWriter.close_file.1.file_is_open = true ∧
    partialCloseWriter.close_file.1.fh.isOpen = true ∧
    (∀ p ∈ [(("a" : String), (⟨.tInt, [1], none, "/a"⟩ : Stack))], ∃ sh cap ch sl,
      alookup partialCloseWriter.fh.objs p.2.path = some (.stackDS sh cap ch sl) ∧
      alookup partialCloseWriter.close_file.1.fh.objs p.2.path =
        some (.stackDS sh cap ch (resizeSlices sl partialCloseWriter.curr_slice))) :=
  close_file_partial_truncation partialCloseWriter
    [("a", ⟨.tInt, [1], none, "/a"⟩)] "b" ⟨.tInt, [1], some (.vInt 7), "/b"⟩ []
    (by decide) (by decide) (by decide)
    (by
      intro p hp
      simp only [List.mem_singleton] at hp
      subst hp
      exact ⟨by decide, [1], 3, 1, [some (.vInt 0), none, none], by decide, by decide⟩)
    (by simp) (by decide)

/-- The data of the last queued entry targeting `p`, if any: after a FIFO
flush in which overwriting succeeds, this is what ends up at `p`. -/
def lastEntryData : List SimpleEntry → String → Option Value
  | [], _ => none
  | e :: rest, p =>
    match lastEntryData rest p with
    | some v => some v
    | none => if e.path = p then some e.data else none

theorem write_simple_entry_ok (fh fh1 : H5File) (e : SimpleEntry)
    (h : write_simple_entry fh e = .ok fh1) :
    fh1.isOpen = fh.isOpen ∧
    alookup fh1.objs e.path = some (.simpleDS e.data) ∧
    ∀ q, q ≠ e.path → alookup fh1.objs q = alookup fh.objs q := by
  cases hopen : fh.isOpen with
  | false =>
    unfold write_simple_entry h5contains at h
    rw [hopen] at h
    simp at h
  | true =>
    cases hocc : alookup fh.objs e.path with
    | none =>
      unfold write_simple_entry h5contains h5create_simple at h
      simp only [hopen, hocc, if_true, Option.isSome_none] at h
      cases h
      refine ⟨rfl, ?_, ?_⟩
      · rw [alookup_append, hocc]
        simp [alookup]
      · intro q hq
        rw [alookup_append]
        have h2 : alookup [(e.path, H5Obj.simpleDS e.data)] q = none := by
          have hne : ¬e.path = q := fun h3 => hq h3.symm
          simp [alookup, hne]
        rw [h2]
        cases alookup fh.objs q <;> rfl
    | some o =>
      cases how : e.overwrite with
      | false =>
        unfold write_simple_entry h5contains at h
        simp only [hopen, hocc, how, if_true, Option.isSome_some, Bool.false_eq_true,
                   if_false] at h
        simp at h
      | true =>
        unfold write_simple_entry h5contains h5delete h5create_simple at h
        simp only [hopen, hocc, how, if_true, Option.isSome_some,
                   alookup_aremove_self] at h
        cases h
        refine ⟨rfl, ?_, ?_⟩
        · rw [alookup_append, alookup_aremove_self]
          simp [alookup]
        · intro q hq
          rw [alookup_append, alookup_aremove_ne _ _ _ hq]
          have h2 : alookup [(e.path, H5Obj.simpleDS e.data)] q = none := by
            have hne : ¬e.path = q := fun h3 => hq h3.symm
            simp [alookup, hne]
          rw [h2]
          cases alookup fh.objs q <;> rfl

theorem flushAll_success (es : List SimpleEntry) :
    ∀ fh fh2, flushAll fh es = (fh2, none) →
      fh2.isOpen = fh.isOpen ∧
      (∀ p v, lastEntryData es p = some v →
        alookup fh2.objs p = some (.simpleDS v)) ∧
      (∀ p, lastEntryData es p = none →
        alookup fh2.objs p = alookup fh.objs p) := by
  induction es with
  | nil =>
    intro fh fh2 h
    simp only [flushAll, Prod.mk.injEq] at h
    obtain ⟨h1, -⟩ := h
    subst h1
    exact ⟨rfl, fun p v hv => by simp [lastEntryData] at hv, fun p hp => rfl⟩
  | cons e rest ih =>
    intro fh fh2 h
    unfold flushAll at h
    cases hw : write_simple_entry fh e with
    | error msg => rw [hw] at h; simp at h
    | ok fh1 =>
      rw [hw] at h
      obtain ⟨ho1, hl1, hf1⟩ := write_simple_entry_ok fh fh1 e hw
      obtain ⟨ho2, hl2, hf2⟩ := ih fh1 fh2 h
      refine ⟨by rw [ho2, ho1], ?_, ?_⟩
      · intro p v hv
        unfold lastEntryData at hv
        cases hrest : lastEntryData rest p with
        | some v2 =>
          rw [hrest] at hv
          cases hv
          exact hl2 p v hrest
        | none =>
          rw [hrest] at hv
          by_cases hep : e.path = p
          · rw [if_pos hep] at hv
            cases hv
            rw [hf2 p hrest, ← hep]
            exact hl1
          · rw [if_neg hep] at hv
            cases hv
      · intro p hp
        unfold lastEntryData at hp
        cases hrest : lastEntryData rest p with
        | some v2 => rw [hrest] at hp; cases hp
        | none =>
          rw [hrest] at hp
          by_cases hep : e.path = p
          · rw [if_pos hep] at hp; cases hp
          · rw [hf2 p hrest, hf1 p (fun h2 => hep h2.symm)]

theorem write_initial_slice_ok (st : Stack) (fh : H5File) (cap : Nat)
    (st1 : Stack) (fh1 : H5File)
    (h : st.write_initial_slice fh cap = (st1, fh1, none)) :
    fh.isOpen = true ∧ alookup fh.objs st.path = none ∧ 0 < cap ∧
    st1 = { st with data_to_write := none } ∧ fh1.isOpen = true ∧
    (∃ v, st.data_to_write = some v ∧
      alookup fh1.objs st.path =
        some (.stackDS st.data_shape cap 1
          ((List.replicate cap (none : Option Value)).set 0 (some v)))) ∧
    (∀ q, q ≠ st.path → alookup fh1.objs q = alookup fh.objs q) := by
  cases hopen : fh.isOpen with
  | false =>
    unfold Stack.write_initial_slice h5create_stack at h
    rw [hopen] at h
    simp at h
  | true =>
    cases hocc : alookup fh.objs st.path with
    | some o =>
      unfold Stack.write_initial_slice h5create_stack at h
      simp only [hopen, hocc, if_true] at h
      simp at h
    | none =>
      cases hd : st.data_to_write with
      | none =>
        unfold Stack.write_initial_slice h5create_stack at h
        simp only [hopen, hocc, hd, if_true] at h
        simp at h
      | some v =>
        unfold Stack.write_initial_slice h5create_stack h5set_slice at h
        by_cases hcap : 0 < cap
        · simp [hopen, hocc, hd, alookup_append, alookup, hcap] at h
          obtain ⟨hst1, hfh1⟩ := h
          subst hst1
          subst hfh1
          refine ⟨rfl, rfl, hcap, rfl, rfl, ⟨v, rfl, alookup_aset_self _ _ _⟩, ?_⟩
          intro q hq
          rw [alookup_aset_ne _ _ _ _ hq, alookup_append]
          have h2 : alookup [(st.path, H5Obj.stackDS st.data_shape cap 1 (List.replicate cap none))] q = none := by
            have hne : ¬st.path = q := fun h3 => hq h3.symm
            simp [alookup, hne]
          rw [h2]
          cases alookup fh.objs q <;> rfl
        · simp [hopen, hocc, hd, alookup_append, alookup, hcap] at h

theorem initAll_success (cap : Nat) (l : List (String × Stack)) :
    ∀ fh l2 fh2, initAll cap fh l = (l2, fh2, none) →
      fh2.isOpen = fh.isOpen ∧
      (∀ p ∈ l, ∃ v, p.2.data_to_write = some v ∧ 0 < cap ∧
        alookup fh2.objs p.2.path =
          some (.stackDS p.2.data_shape cap 1
            ((List.replicate cap (none : Option Value)).set 0 (some v)))) ∧
      (∀ q, alookup fh.objs q ≠ none → alookup fh2.objs q = alookup fh.objs q) := by
  induction l with
  | nil =>
    intro fh l2 fh2 h
    simp only [initAll, Prod.mk.injEq] at h
    obtain ⟨-, h1, -⟩ := h
    subst h1
    exact ⟨rfl, by simp, fun q _ => rfl⟩
  | cons a rest ih =>
    intro fh l2 fh2 h
    obtain ⟨an, ast⟩ := a
    unfold initAll at h
    cases hw : ast.write_initial_slice fh cap with
    | mk st1 q2 =>
      obtain ⟨fh1, err⟩ := q2
      rw [hw] at h
      cases err with
      | some e => simp at h
      | none =>
        simp only at h
        cases hrest : initAll cap fh1 rest with
        | mk rest1 q3 =>
          obtain ⟨fh3, err3⟩ := q3
          rw [hrest] at h
          simp only [Prod.mk.injEq] at h
          obtain ⟨-, h2, h3⟩ := h
          subst h2
          cases err3 with
          | some e => cases h3
          | none =>
            obtain ⟨hopen, hfree, hcap, hst1, hfh1open, ⟨v, hv, hlook⟩, hframe⟩ :=
              write_initial_slice_ok ast fh cap st1 fh1 hw
            obtain ⟨ho2, hres2, hframe2⟩ := ih fh1 rest1 _ hrest
            refine ⟨by rw [ho2, hfh1open, hopen], ?_, ?_⟩
            · intro p hp
              rcases List.mem_cons.mp hp with rfl | hp2
              · refine ⟨v, hv, hcap, ?_⟩
                rw [hframe2 ast.path (by rw [hlook]; exact fun h4 => Option.noConfusion h4)]
                exact hlook
              · exact hres2 p hp2
            · intro q hq
              have hqne : q ≠ ast.path := by
                intro h4
                rw [h4, hfree] at hq
                exact hq rfl
              rw [hframe2 q (by rw [hframe q hqne]; exact hq), hframe q hqne]

/-- Claim C4: the `initialize_stacks` contract.  It fails when the file is
closed or the writer is already initialized.  When it returns successfully it
has, for every registered series whose dataset the queued one-shot entries do
not overwrite, created a resizable stack dataset of allocated leading length
`max_num_slices` with leading chunk size 1 holding the series' initial value
at index 0; it has advanced the slice counter by one (to 1 from the fresh
state), flushed the queued one-shot entries in FIFO order through the
immediate-write path (the last queued entry for a path is what the container
holds there), emptied the queue and set the initialized flag. -/
theorem initialize_stacks_contract (w : CXIWriter) :
    (w.file_is_open = false →
      w.initialize_stacks = (w, some "The file is closed. Cannot initialize the file.")) ∧
    (w.file_is_open = true → w.initialized = true →
      w.initialize_stacks = (w, some "The file is already initialized. Cannot initialize file.")) ∧
    (w.initialize_stacks.2 = none →
      w.initialize_stacks.1.initialized = true ∧
      w.initialize_stacks.1.curr_slice = w.curr_slice + 1 ∧
      (w.curr_slice = 0 → w.initialize_stacks.1.curr_slice = 1) ∧
      w.initialize_stacks.1.pending_simple_entries = [] ∧
      (∀ p ∈ w.cxi_stacks, lastEntryData w.pending_simple_entries p.2.path = none →
        ∃ v tl, p.2.data_to_write = some v ∧
          alookup w.initialize_stacks.1.fh.objs p.2.path =
            some (.stackDS p.2.data_shape w.max_num_slices 1 (some v :: tl)) ∧
          (some v :: tl).length = w.max_num_slices) ∧
      (∀ p v, lastEntryData w.pending_simple_entries p = some v →
        alookup w.initialize_stacks.1.fh.objs p = some (.simpleDS v))) := by
  refine ⟨?_, ?_, ?_⟩
  · intro ho
    unfold CXIWriter.initialize_stacks
    rw [ho]
    rfl
  · intro ho hi
    unfold CXIWriter.initialize_stacks
    rw [ho, hi]
    rfl
  · intro hsucc
    cases ho : w.file_is_open with
    | false =>
      unfold CXIWriter.initialize_stacks at hsucc
      rw [ho] at hsucc
      simp at hsucc
    | true =>
    cases hi : w.initialized with
    | true =>
      unfold CXIWriter.initialize_stacks at hsucc
      rw [ho, hi] at hsucc
      simp at hsucc
    | false =>
    cases hia : initAll w.max_num_slices w.fh w.cxi_stacks with
    | mk stacks1 q =>
      obtain ⟨fh1, err⟩ := q
      cases err with
      | some e =>
        unfold CXIWriter.initialize_stacks at hsucc
        rw [ho, hi] at hsucc
        simp [hia] at hsucc
      | none =>
        cases hfl : flushAll fh1 w.pending_simple_entries with
        | mk fh2 err2 =>
          cases err2 with
          | some e =>
            unfold CXIWriter.initialize_stacks at hsucc
            rw [ho, hi] at hsucc
            simp [hia, hfl] at hsucc
          | none =>
            have hres : w.initialize_stacks =
                ({ w with cxi_stacks := stacks1, fh := fh2, curr_slice := w.curr_slice + 1, pending_simple_entries := [], initialized := true }, none) := by
              unfold CXIWriter.initialize_stacks
              rw [ho, hi]
              simp only [ne_eq, not_true_eq_false, if_false, Bool.false_eq_true,
                         hia, hfl]
            obtain ⟨-, hres1, hframe1⟩ :=
              initAll_success w.max_num_slices w.cxi_stacks w.fh stacks1 fh1 hia
            obtain ⟨-, hflush, hframe2⟩ :=
              flushAll_success w.pending_simple_entries fh1 fh2 hfl
            rw [hres]
            refine ⟨rfl, rfl, fun h0 => by rw [h0], rfl, ?_, ?_⟩
            · intro p hp hlast
              obtain ⟨v, hv, hcap, hlook1⟩ := hres1 p hp
              cases hcapn : w.max_num_slices with
              | zero => rw [hcapn] at hcap; omega
              | succ k =>
                refine ⟨v, List.replicate k none, hv, ?_, by simp⟩
                rw [hframe2 p.2.path hlast]
                rw [hcapn] at hlook1
                simpa [List.replicate_succ] using hlook1
            · intro p v hlast
              exact hflush p v hlast

/-- A fresh capacity-4 writer with one registered series and two queued
one-shot entries targeting the same path (the second with overwrite). -/
def initWitnessW : CXIWriter :=
  ((((CXIWriter.new 4).add_stack_to_writer "det" "/d" (.vInt 0)).1.write_entry
      "/m" (.vStr "a") false).1.write_entry "/m" (.vStr "b") true).1

/-- Witness for C4: a closed writer and an already-initialized writer fail to
initialize; `initWitnessW` initializes successfully with the stated
postconditions. -/
theorem initialize_stacks_contract_witness :
    closedOnInit.initialize_stacks =
      (closedOnInit, some "The file is closed. Cannot initialize the file.") ∧
    (CXIWriter.new 2).initialize_stacks.1.initialize_stacks =
      ((CXIWriter.new 2).initialize_stacks.1,
       some "The file is already initialized. Cannot initialize file.") ∧
    (initWitnessW.initialize_stacks.1.initialized = true ∧
     initWitnessW.initialize_stacks.1.curr_slice = initWitnessW.curr_slice + 1 ∧
     (initWitnessW.curr_slice = 0 → initWitnessW.initialize_stacks.1.curr_slice = 1) ∧
     initWitnessW.initialize_stacks.1.pending_simple_entries = [] ∧
     (∀ p ∈ initWitnessW.cxi_stacks,
        lastEntryData initWitnessW.pending_simple_entries p.2.path = none →
        ∃ v tl, p.2.data_to_write = some v ∧
          alookup initWitnessW.initialize_stacks.1.fh.objs p.2.path =
            some (.stackDS p.2.data_shape initWitnessW.max_num_slices 1 (some v :: tl)) ∧
          (some v :: tl).length = initWitnessW.max_num_slices) ∧
     (∀ p v, lastEntryData initWitnessW.pending_simple_entries p = some v →
        alookup initWitnessW.initialize_stacks.1.fh.objs p = some (.simpleDS v))) :=
  ⟨(initialize_stacks_contract closedOnInit).1 (by decide),
   (initialize_stacks_contract (CXIWriter.new 2).initialize_stacks.1).2.1
     (by decide) (by decide),
   (initialize_stacks_contract initWitnessW).2.2 (by decide)⟩
